import Mathlib

/-!
Verification of the CPC sketch core (cpc_sketch_impl.hpp) against its
natural-language specification.

Machine integers are embedded as `Nat` with explicit reduction modulo
2^w where the C++ code can wrap.  Where the C++ code performs a shift at
type `int` (32-bit signed), the embedding `intShl` reproduces the two's
complement result; shifts whose result is not representable at `int`
are undefined behavior in C++ and are modelled here as the prevailing
x86 behavior (shift count masked to 5 bits, value reduced mod 2^32).
C++ exceptions (`throw`) are modelled as `Option.none`; out-of-range
vector indexing (undefined behavior) is modelled as read-0 / write-noop
and is documented at each definition where it can occur.
-/

namespace Cpc

/-- Number of set bits of a natural number (used for the popcount of the
bit matrix); fuel-based structural recursion so that it evaluates by
`decide`. -/
def popcountAux : Nat → Nat → Nat
  | 0, _ => 0
  | _ + 1, 0 => 0
  | fuel + 1, n => n % 2 + popcountAux fuel (n / 2)

/-- Popcount of a 64-bit word (any value below 2^64 is counted exactly). -/
def popcount64 (n : Nat) : Nat := popcountAux 64 (n % 2 ^ 64)

/-- Fuel-based bit length (index of the highest set bit plus one), written
so that it evaluates structurally inside `decide`. -/
def bitlenAux : Nat → Nat → Nat
  | 0, _ => 0
  | fuel + 1, n => if n = 0 then 0 else bitlenAux fuel (n / 2) + 1

/-- Modelled from the spec: `count_leading_zeros_in_u64` (defined in the
repository outside src/).  Number of leading zero bits of the 64-bit
representation; 64 for input 0. -/
def clz64 (h : Nat) : Nat := 64 - bitlenAux 64 (h % 2 ^ 64)

/-- Fuel-based helper for counting trailing zeros. -/
def ctzAux : Nat → Nat → Nat
  | 0, _ => 0
  | fuel + 1, n => if n % 2 = 1 then 0 else 1 + ctzAux fuel (n / 2)

/-- Modelled from the spec: `count_trailing_zeros_in_u64` (defined in the
repository outside src/).  Index of the lowest set bit; 64 for input 0. -/
def ctz64 (n : Nat) : Nat := if n % 2 ^ 64 = 0 then 64 else ctzAux 64 (n % 2 ^ 64)

/-- The C++ expression `a << n` at type `int` (32-bit signed), as a
mathematical integer.  When `a * 2^n` is representable the value is the
two's complement 32-bit result; larger shifts are undefined behavior in
C++ and are modelled as the prevailing x86 behavior (count masked to 5
bits, value reduced mod 2^32). -/
def intShl (a n : Nat) : Int :=
  let v : Nat := (a * 2 ^ (n % 32)) % 2 ^ 32
  if v < 2 ^ 31 then (v : Int) else (v : Int) - 2 ^ 32

/-- Conversion of a C++ signed value to `uint64_t` (reduction mod 2^64,
i.e. sign extension for negative values). -/
def u64ofInt (i : Int) : Nat := (i % (2 ^ 64 : Int)).toNat

/-- Little-endian byte encoding of the low `w` bytes of `n`. -/
def leBytes : Nat → Nat → List Nat
  | 0, _ => []
  | w + 1, n => n % 256 :: leBytes w (n / 256)

/-- Little-endian byte decoding. -/
def deLE : List Nat → Nat
  | [] => 0
  | b :: rest => b % 256 + 256 * deLE rest

/-- Modelled from the spec: CPC_MIN_LG_K (constant defined in the repository
outside src/); the spec fixes lg_k to the range [4, 26]. -/
def CPC_MIN_LG_K : Nat := 4

/-- Modelled from the spec: CPC_MAX_LG_K (constant defined in the repository
outside src/). -/
def CPC_MAX_LG_K : Nat := 26

/-- Modelled from the spec: SERIAL_VERSION constant (defined in the repository
outside src/); the serialized byte at offset 1. -/
def SERIAL_VERSION : Nat := 1

/-- Modelled from the spec: FAMILY constant (defined in the repository outside
src/); the serialized byte at offset 2. -/
def FAMILY : Nat := 16

/-- Modelled from the spec: bit position of the IS_COMPRESSED flag in the
flags byte (the flags enum lives outside src/). -/
def FLAG_IS_COMPRESSED : Nat := 0

/-- Modelled from the spec: bit position of the HAS_HIP flag. -/
def FLAG_HAS_HIP : Nat := 1

/-- Modelled from the spec: bit position of the HAS_TABLE flag. -/
def FLAG_HAS_TABLE : Nat := 2

/-- Modelled from the spec: bit position of the HAS_WINDOW flag. -/
def FLAG_HAS_WINDOW : Nat := 3

/-- Modelled from the spec: compute_seed_hash produces a deterministic 16-bit
digest of the 64-bit seed (the hashing helper lives in the repository outside
src/); only determinism and the 16-bit range matter to the claims settled
here. -/
def compute_seed_hash (seed : Nat) : Nat := seed % 65536

/-- Modelled from the spec: MurmurHash3_x64_128 is an external collaborator
treated as an opaque oracle hash128(bytes, seed) to (h1, h2).  Deterministic
stand-in mixing function; the claims about the update paths hold for every
oracle output, and the concrete evaluations only need determinism. -/
def hash128 (bytes : List Nat) (seed : Nat) : Nat × Nat :=
  let a : Nat := bytes.foldl
    (fun acc b => (acc * 6364136223846793005 + b + 1442695040888963407) % 2 ^ 64)
    ((seed + 9650029242287828579) % 2 ^ 64)
  (a, (a * 2862933555777941757 + 3037000493) % 2 ^ 64)

/-- Modelled from the spec: the open-addressed u32_table (implemented in the
repository outside src/) is a set of row_col codes; maybe_insert returns true
iff the code was not previously present.  The real table cannot represent the
sentinel 0xFFFFFFFF; the set model ignores this distinction (no claim settled
here feeds the sentinel into the table). -/
def maybe_insert (t : List Nat) (c : Nat) : List Nat × Bool :=
  if c ∈ t then (t, false) else (t ++ [c], true)

/-- Modelled from the spec: maybe_delete returns true iff the code was present
and is now removed. -/
def maybe_delete (t : List Nat) (c : Nat) : List Nat × Bool :=
  if c ∈ t then (t.erase c, true) else (t, false)

/-- State of a cpc_sketch_alloc, with the two double registers carried as
64-bit patterns (`kxp`, `hip_est_accum`). -/
structure Sketch where
  lg_k : Nat
  seed : Nat
  was_merged : Bool
  num_coupons : Nat
  surprising_value_table : List Nat
  sliding_window : List Nat
  window_offset : Nat
  first_interesting_column : Nat
  kxp : Nat
  hip_est_accum : Nat
deriving DecidableEq, Repr

/-- IEEE-754 bit pattern of the double 2^e (exact for e below 64); the public
constructor initializes kxp to the double value (1 << lg_k). -/
def double_bits_of_pow2 (e : Nat) : Nat := (1023 + e) <<< 52

/-- The public constructor cpc_sketch_alloc(lg_k, seed); throws (none) when
lg_k is outside [CPC_MIN_LG_K, CPC_MAX_LG_K]. -/
def cpc_sketch_new (lg_k seed : Nat) : Option Sketch :=
  if lg_k < CPC_MIN_LG_K ∨ lg_k > CPC_MAX_LG_K then none
  else some {
    lg_k := lg_k
    seed := seed
    was_merged := false
    num_coupons := 0
    surprising_value_table := []
    sliding_window := []
    window_offset := 0
    first_interesting_column := 0
    kxp := double_bits_of_pow2 lg_k
    hip_est_accum := 0 }

/-- The five flavors of a CPC sketch. -/
inductive Flavor where
  | EMPTY
  | SPARSE
  | HYBRID
  | PINNED
  | SLIDING
deriving DecidableEq, Repr

/-- Static determine_flavor(lg_k, c); the parameter c has type uint64_t, so
the shifts c << 1, c << 3, c << 5 are 64-bit and wrap mod 2^64. -/
def determine_flavor (lg_k c : Nat) : Flavor :=
  let k : Nat := 2 ^ lg_k
  let c2 : Nat := (c * 2) % 2 ^ 64
  let c8 : Nat := (c * 8) % 2 ^ 64
  let c32 : Nat := (c * 32) % 2 ^ 64
  if c = 0 then Flavor.EMPTY
  else if c32 < 3 * k then Flavor.SPARSE
  else if c2 < k then Flavor.HYBRID
  else if c8 < 27 * k then Flavor.PINNED
  else Flavor.SLIDING

/-- Static determine_correct_offset(lg_k, c): tmp = (int64)(c << 3) -
(int64)(19 k); 0 when tmp is negative, otherwise tmp >> (lg_k + 3)
truncated to uint8 by the return type. -/
def determine_correct_offset (lg_k c : Nat) : Nat :=
  let k : Nat := 2 ^ lg_k
  let c8 : Nat := (c * 8) % 2 ^ 64
  let a : Int := if c8 < 2 ^ 63 then (c8 : Int) else (c8 : Int) - 2 ^ 64
  let tmp : Int := a - 19 * k
  if tmp < 0 then 0 else (tmp.toNat / 2 ^ (lg_k + 3)) % 256

/-- Static get_preamble_ints(num_coupons, has_hip, has_table, has_window);
the additions happen only inside the num_coupons > 0 branch. -/
def get_preamble_ints (num_coupons : Nat) (has_hip has_table has_window : Bool) : Nat :=
  2 + (if num_coupons > 0 then
        1 + (if has_hip then 4 else 0)
          + (if has_table then 1 + (if has_window then 1 else 0) else 0)
          + (if has_window then 1 else 0)
      else 0)

/-- Free function row_col_from_two_hashes(hash0, hash1, lg_k): throws (none)
when lg_k > 26; col is clz of hash1 clipped to 63, row the low lg_k bits of
hash0; the sentinel 0xFFFFFFFF is remapped by flipping bit 6. -/
def row_col_from_two_hashes (hash0 hash1 lg_k : Nat) : Option Nat :=
  if lg_k > 26 then none
  else
    let k : Nat := 2 ^ lg_k
    let col0 : Nat := clz64 hash1
    let col : Nat := if col0 > 63 then 63 else col0
    let row : Nat := hash0 &&& (k - 1)
    let rc : Nat := (row <<< 6) ||| col
    some (if rc = 4294967295 then rc ^^^ (1 <<< 6) else rc)

/-- Helper: XOR a value into entry i of a word list.  Out-of-range i is
undefined behavior in the C++ (raw array indexing); modelled as a no-op. -/
def listXorAt (m : List Nat) (i v : Nat) : List Nat := m.set i (m.getD i 0 ^^^ v)

/-- Helper: OR a value into entry i of a byte list; same out-of-range
convention as listXorAt. -/
def listOrAt (l : List Nat) (i v : Nat) : List Nat := l.set i (l.getD i 0 ||| v)

/-- Table pass of build_bit_matrix: for each stored code, matrix[row] ^=
1 << col, where 1 << col is a 32-bit int shift (intShl) whose value is then
converted to uint64_t with sign extension (u64ofInt). -/
def bbm_apply_table : List Nat → List Nat → List Nat
  | [], m => m
  | code :: rest, m =>
      bbm_apply_table rest (listXorAt m (code >>> 6) (u64ofInt (intShl 1 (code &&& 63))))

/-- build_bit_matrix: throws (none) when window_offset > 56; rows default to
(1 << window_offset) - 1 (again a 32-bit int shift), window bytes are OR-ed
in at window_offset (64-bit shift of the widened byte), and each table code
XOR-flips 1 << col (32-bit int shift, sign extended). -/
def build_bit_matrix (s : Sketch) : Option (List Nat) :=
  if s.window_offset > 56 then none
  else
    let k : Nat := 2 ^ s.lg_k
    let default_row : Nat := u64ofInt (intShl 1 s.window_offset - 1)
    if s.num_coupons = 0 then some (List.replicate k default_row)
    else
      let m1 : List Nat :=
        if s.sliding_window.length > 0 then
          (List.range k).map
            (fun i => default_row ||| ((s.sliding_window.getD i 0) <<< s.window_offset))
        else List.replicate k default_row
      some (bbm_apply_table s.surprising_value_table m1)

/-- count_bits_set_in_matrix. -/
def count_bits_set_in_matrix (m : List Nat) : Nat := (m.map popcount64).sum

/-- validate(): rebuild the bit matrix and compare its popcount with
num_coupons. -/
def validate (s : Sketch) : Option Bool :=
  (build_bit_matrix s).map (fun m => count_bits_set_in_matrix m == s.num_coupons)

/-- Modelled from the spec: update_hip adjusts the two double registers
(hip_est_accum += k/kxp; kxp -= 2^-(col+1)).  IEEE-754 double arithmetic is
outside this shallow embedding; the registers are opaque 64-bit patterns
updated by a deterministic stand-in.  No claim settled here depends on the
values, only on their bit-exact preservation by serialization. -/
def hip_regs_update (lg_k col kxp hip : Nat) : Nat × Nat :=
  ((kxp * 31 + lg_k * 7 + col + 11) % 2 ^ 64, (hip * 29 + col * 5 + 13) % 2 ^ 64)

/-- Method update_hip(row_col). -/
def update_hip (s : Sketch) (row_col : Nat) : Sketch :=
  let col : Nat := row_col &&& 63
  let regs := hip_regs_update s.lg_k col s.kxp s.hip_est_accum
  { s with kxp := regs.1, hip_est_accum := regs.2 }

/-- Modelled from the spec: refresh_kxp recomputes kxp from the full bit
matrix by table-driven double summation; stand-in for the same reason as
hip_regs_update. -/
def refresh_kxp_reg (matrix : List Nat) : Nat :=
  matrix.foldl (fun acc w => (acc * 131 + w + 1) % 2 ^ 64) 17

/-- Inner loop of move_window: extract the set bits of a transformed row
pattern and insert the codes (i << 6) | col into the table; each insertion
must be novel (throw, i.e. none, otherwise).  The bit is erased with
pattern ^ (1 << col), again a 32-bit int shift sign extended to 64 bits;
with that slip the loop need not terminate in C++, hence the fuel, whose
exhaustion is also modelled as none. -/
def insert_bits : Nat → Nat → Nat → List Nat → Option (List Nat)
  | 0, _, _, _ => none
  | fuel + 1, i, pattern, table =>
      if pattern = 0 then some table
      else
        let col : Nat := ctz64 pattern
        let pattern2 : Nat := pattern ^^^ u64ofInt (intShl 1 col)
        let rc : Nat := (i <<< 6) ||| col
        match maybe_insert table rc with
        | (t, true) => insert_bits fuel i pattern2 t
        | (_, false) => none

/-- Row loop of move_window: per row take the new window byte, clear the
window bits, flip the early zone, accumulate all_surprises_ored, and insert
the remaining surprise bits into the fresh table. -/
def move_rows (new_offset mask_clear mask_flip : Nat) :
    List Nat → Nat → List Nat → List Nat → Nat → Option (List Nat × List Nat × Nat)
  | [], _, window, table, ored => some (window, table, ored)
  | pat :: rest, i, window, table, ored =>
      let wbyte : Nat := (pat >>> new_offset) &&& 255
      let p1 : Nat := pat &&& mask_clear
      let p2 : Nat := p1 ^^^ mask_flip
      let ored2 : Nat := ored ||| p2
      match insert_bits 130 i p2 table with
      | some t2 =>
          move_rows new_offset mask_clear mask_flip rest (i + 1) (window.set i wbyte) t2 ored2
      | none => none

/-- move_window(): assertions modelled as none; the masks reproduce the
32-bit int shifts of the source ((0xff << new_offset) and (1 << new_offset)
- 1, both sign extended on conversion to uint64_t); kxp is refreshed from
the bit matrix on every e8th shift. -/
def move_window (s : Sketch) : Option Sketch :=
  let new_offset : Nat := s.window_offset + 1
  if new_offset > 56 then none
  else if new_offset ≠ determine_correct_offset s.lg_k s.num_coupons then none
  else if s.sliding_window.length = 0 then none
  else
    match build_bit_matrix s with
    | none => none
    | some bm =>
        let kxp2 : Nat := if new_offset % 8 = 0 then refresh_kxp_reg bm else s.kxp
        let mask_clear : Nat := u64ofInt (intShl 255 new_offset) ^^^ (2 ^ 64 - 1)
        let mask_flip : Nat := u64ofInt (intShl 1 new_offset - 1)
        match move_rows new_offset mask_clear mask_flip bm 0 s.sliding_window [] 0 with
        | none => none
        | some (w, t, ored) =>
            let fic0 : Nat := ctz64 ored
            some { s with
              sliding_window := w
              surprising_value_table := t
              window_offset := new_offset
              kxp := kxp2
              first_interesting_column := if fic0 > new_offset then new_offset else fic0 }

/-- Scan of the old table during promotion: codes with col < 8 set window
bits, the others are re-inserted into a fresh table (necessarily novel). -/
def promote_scan : List Nat → List Nat → List Nat → Option (List Nat × List Nat)
  | [], window, newTable => some (window, newTable)
  | code :: rest, window, newTable =>
      let col : Nat := code &&& 63
      if col < 8 then
        promote_scan rest (listOrAt window (code >>> 6) (1 <<< col)) newTable
      else
        match maybe_insert newTable code with
        | (t, true) => promote_scan rest window t
        | (_, false) => none

/-- promote_sparse_to_windowed(): note that c32 = num_coupons << 5 is
computed on the uint32_t field, so it wraps mod 2^32 before widening. -/
def promote_sparse_to_windowed (s : Sketch) : Option Sketch :=
  let k : Nat := 2 ^ s.lg_k
  let c32 : Nat := (s.num_coupons * 32) % 2 ^ 32
  if ¬ (c32 = 3 * k ∨ (s.lg_k = 4 ∧ c32 > 3 * k)) then none
  else if s.window_offset ≠ 0 then none
  else
    match promote_scan s.surprising_value_table (List.replicate k 0) [] with
    | some (w, t) => some { s with sliding_window := w, surprising_value_table := t }
    | none => none

/-- update_sparse(row_col): c32pre and c32post are num_coupons << 5 on the
uint32_t field (mod 2^32). -/
def update_sparse (s : Sketch) (row_col : Nat) : Option Sketch :=
  let k : Nat := 2 ^ s.lg_k
  let c32pre : Nat := (s.num_coupons * 32) % 2 ^ 32
  if c32pre ≥ 3 * k then none
  else
    match maybe_insert s.surprising_value_table row_col with
    | (t, is_novel) =>
        let s1 : Sketch := { s with surprising_value_table := t }
        if is_novel then
          let s2 : Sketch :=
            update_hip { s1 with num_coupons := (s1.num_coupons + 1) % 2 ^ 32 } row_col
          let c32post : Nat := (s2.num_coupons * 32) % 2 ^ 32
          if c32post ≥ 3 * k then promote_sparse_to_windowed s2 else some s2
        else some s1

/-- Column-zone dispatch of update_windowed: early zone deletes a surprise,
the in-window zone sets a window bit (reading sliding_window[row] out of
range is undefined behavior, modelled as none), the late zone inserts a
surprise; the flag is the novelty of the coupon. -/
def uw_branch (s : Sketch) (row_col : Nat) : Option (Sketch × Bool) :=
  let col : Nat := row_col &&& 63
  if col < s.window_offset then
    match maybe_delete s.surprising_value_table row_col with
    | (t, novel) => some ({ s with surprising_value_table := t }, novel)
  else if col < s.window_offset + 8 then
    let row : Nat := row_col >>> 6
    if row < s.sliding_window.length then
      let old_bits : Nat := s.sliding_window.getD row 0
      let new_bits : Nat := old_bits ||| (1 <<< (col - s.window_offset))
      if new_bits ≠ old_bits then
        some ({ s with sliding_window := s.sliding_window.set row new_bits }, true)
      else some (s, false)
    else none
  else
    match maybe_insert s.surprising_value_table row_col with
    | (t, novel) => some ({ s with surprising_value_table := t }, novel)

/-- The move_window call of update_windowed together with the assertions on
the resulting offset. -/
def uw_move_check (s2 : Sketch) (c8post k : Nat) : Option Sketch :=
  match move_window s2 with
  | none => none
  | some s3 =>
      if s3.window_offset < 1 ∨ s3.window_offset > 56 then none
      else if c8post ≥ (27 + s3.window_offset * 8) * k then none
      else some s3

/-- Tail of update_windowed after the zone dispatch: on a novel coupon bump
num_coupons (uint32 wrap), update HIP, and run move_window when c8post
reaches the (27 + w8pre) k trigger. -/
def uw_finish (s1 : Sketch) (w8pre k row_col : Nat) (is_novel : Bool) : Option Sketch :=
  if is_novel then
    let s2 : Sketch :=
      update_hip { s1 with num_coupons := (s1.num_coupons + 1) % 2 ^ 32 } row_col
    let c8post : Nat := (s2.num_coupons * 8) % 2 ^ 32
    if c8post ≥ (27 + w8pre) * k then uw_move_check s2 c8post k else some s2
  else some s1

/-- update_windowed(row_col): guard assertions, the zone dispatch, and the
window-motion tail; c32pre, c8pre and c8post are shifts of the uint32_t
num_coupons field and wrap mod 2^32 before widening to uint64_t (the source
lacks the widening casts). -/
def update_windowed (s : Sketch) (row_col : Nat) : Option Sketch :=
  if s.window_offset > 56 then none
  else
    let k : Nat := 2 ^ s.lg_k
    let c32pre : Nat := (s.num_coupons * 32) % 2 ^ 32
    if c32pre < 3 * k then none
    else
      let c8pre : Nat := (s.num_coupons * 8) % 2 ^ 32
      let w8pre : Nat := s.window_offset * 8
      if c8pre ≥ (27 + w8pre) * k then none
      else
        match uw_branch s row_col with
        | none => none
        | some (s1, is_novel) => uw_finish s1 w8pre k row_col is_novel

/-- row_col_update(row_col): the public coupon entry point with the
first_interesting_column short circuit and the sparse/windowed dispatch. -/
def row_col_update (s : Sketch) (row_col : Nat) : Option Sketch :=
  let col : Nat := row_col &&& 63
  if col < s.first_interesting_column then some s
  else if s.sliding_window.length = 0 then update_sparse s row_col
  else update_windowed s row_col

/-- update(const void*, int): hash the bytes (whatever their number,
including zero) and feed the resulting row_col to row_col_update. -/
def update_mem (s : Sketch) (bytes : List Nat) : Option Sketch :=
  let h := hash128 bytes s.seed
  match row_col_from_two_hashes h.1 h.2 s.lg_k with
  | none => none
  | some rc => row_col_update s rc

/-- update(const std::string&): empty strings return immediately. -/
def update_string (s : Sketch) (value : List Nat) : Option Sketch :=
  if value = [] then some s else update_mem s value

/-- Two-complement 64-bit pattern of the w-bit value v sign extended to
int64_t. -/
def sext (w v : Nat) : Nat :=
  let v0 : Nat := v % 2 ^ w
  if v0 < 2 ^ (w - 1) then v0 else 2 ^ 64 - 2 ^ w + v0

/-- update(uint64_t): hashes the 8 in-memory bytes (little endian). -/
def update_u64 (s : Sketch) (v : Nat) : Option Sketch :=
  update_mem s (leBytes 8 (v % 2 ^ 64))

/-- update(int64_t), taking the 64-bit pattern of the value. -/
def update_i64 (s : Sketch) (p : Nat) : Option Sketch :=
  update_mem s (leBytes 8 (p % 2 ^ 64))

/-- update(int32_t): static_cast to int64_t, i.e. sign extension of the
32-bit pattern. -/
def update_i32 (s : Sketch) (p : Nat) : Option Sketch :=
  update_i64 s (sext 32 p)

/-- update(uint32_t): static_cast to int32_t (same 32-bit pattern), then the
int32_t overload. -/
def update_u32 (s : Sketch) (v : Nat) : Option Sketch :=
  update_i32 s (v % 2 ^ 32)

/-- update(int16_t): static_cast to int64_t. -/
def update_i16 (s : Sketch) (p : Nat) : Option Sketch :=
  update_i64 s (sext 16 p)

/-- update(uint16_t): static_cast to int16_t, then the int16_t overload. -/
def update_u16 (s : Sketch) (v : Nat) : Option Sketch :=
  update_i16 s (v % 2 ^ 16)

/-- update(int8_t): static_cast to int64_t. -/
def update_i8 (s : Sketch) (p : Nat) : Option Sketch :=
  update_i64 s (sext 8 p)

/-- update(uint8_t): static_cast to int8_t, then the int8_t overload. -/
def update_u8 (s : Sketch) (v : Nat) : Option Sketch :=
  update_i8 s (v % 2 ^ 8)

/-- Zero patterns of a double (positive and negative zero); value == 0.0
holds exactly for these two bit patterns. -/
def is_zero_double (bits : Nat) : Bool := bits == 0 || bits == 2 ^ 63

/-- NaN patterns of a double: exponent field all ones and non-zero
mantissa. -/
def is_nan_double (bits : Nat) : Bool :=
  (((bits >>> 52) &&& 2047) == 2047) && !(bits &&& (2 ^ 52 - 1) == 0)

/-- Canonicalization performed by update(double): zeros map to +0.0 and all
NaN values to the fixed pattern 0x7ff8000000000000. -/
def canonical_double (bits : Nat) : Nat :=
  if is_zero_double bits then 0
  else if is_nan_double bits then 9221120237041090560
  else bits % 2 ^ 64

/-- update(double), on bit patterns: canonicalize, then hash the 8 bytes of
the pattern. -/
def update_double (s : Sketch) (bits : Nat) : Option Sketch :=
  update_mem s (leBytes 8 (canonical_double bits))

/-- The exact conversion of a 32-bit float pattern to the 64-bit double
pattern performed by static_cast<double>(float): the numeric value converts
exactly; NaN payloads keep the mantissa shifted into the wide field (the
x86 convention). -/
def float_to_double_bits (f : Nat) : Nat :=
  let f0 : Nat := f % 2 ^ 32
  let sign : Nat := f0 >>> 31
  let e : Nat := (f0 >>> 23) &&& 255
  let m : Nat := f0 &&& (2 ^ 23 - 1)
  if e = 255 then (sign <<< 63) ||| (2047 <<< 52) ||| (m <<< 29)
  else if e = 0 then
    if m = 0 then sign <<< 63
    else
      let b : Nat := Nat.log2 m
      (sign <<< 63) ||| ((874 + b) <<< 52) ||| ((m - 2 ^ b) <<< (52 - b))
  else (sign <<< 63) ||| ((e + 896) <<< 52) ||| (m <<< 29)

/-- update(float): static_cast to double, then the double overload. -/
def update_float (s : Sketch) (f : Nat) : Option Sketch :=
  update_double s (float_to_double_bits f)

/-- Compressed image of a sketch, mirroring compressed_state: word counts
are the lengths of the payload lists. -/
structure CompressedState where
  table_data : List Nat
  table_num_entries : Nat
  window_data : List Nat
deriving Repr, DecidableEq

/-- Modelled from the spec: the compressor back end is an external
collaborator (outside src/) with the contract compress(state) to
(table_words, window_words, table_num_entries, byte buffers), deterministic
and round-trip safe; a null table or window data pointer corresponds to an
empty table or an unallocated window.  The model encodes each table code and
each window byte as one 32-bit payload word. -/
def compress (s : Sketch) : CompressedState :=
  { table_data := s.surprising_value_table
    table_num_entries := s.surprising_value_table.length
    window_data := s.sliding_window }

/-- Modelled from the spec: the table half of the compressor inverse. -/
def uncompress_table (words : List Nat) : List Nat := words

/-- Modelled from the spec: the window half of the compressor inverse. -/
def uncompress_window (words : List Nat) : List Nat := words

/-- The flags byte written by serialize. -/
def flags_byte_of (has_hip has_table has_window : Bool) : Nat :=
  (1 <<< FLAG_IS_COMPRESSED)
  ||| (if has_hip then 1 <<< FLAG_HAS_HIP else 0)
  ||| (if has_table then 1 <<< FLAG_HAS_TABLE else 0)
  ||| (if has_window then 1 <<< FLAG_HAS_WINDOW else 0)

/-- Payload words written as little-endian byte quadruples. -/
def wr_words (ws : List Nat) : List Nat := (ws.map (leBytes 4)).flatten

/-- serialize(std::ostream&): the envelope bytes in write order; the body is
written only when the sketch is non-empty. -/
def serialize (s : Sketch) : List Nat :=
  let compressed : CompressedState := compress s
  let has_hip : Bool := !s.was_merged
  let has_table : Bool := !compressed.table_data.isEmpty
  let has_window : Bool := !compressed.window_data.isEmpty
  let preamble_ints : Nat := get_preamble_ints s.num_coupons has_hip has_table has_window
  [preamble_ints % 256, SERIAL_VERSION % 256, FAMILY % 256, s.lg_k % 256,
   s.first_interesting_column % 256, flags_byte_of has_hip has_table has_window % 256]
  ++ leBytes 2 (compute_seed_hash s.seed)
  ++ (if s.num_coupons = 0 then [] else
      leBytes 4 s.num_coupons
      ++ (if has_table && has_window then
            leBytes 4 compressed.table_num_entries
            ++ (if has_hip then leBytes 8 s.kxp ++ leBytes 8 s.hip_est_accum else [])
          else [])
      ++ (if has_table then leBytes 4 compressed.table_data.length else [])
      ++ (if has_window then leBytes 4 compressed.window_data.length else [])
      ++ (if has_hip && !(has_table && has_window) then
            leBytes 8 s.kxp ++ leBytes 8 s.hip_est_accum
          else [])
      ++ (if has_window then wr_words compressed.window_data else [])
      ++ (if has_table then wr_words compressed.table_data else []))

/-- Reader of a w-byte little-endian field; none models a short stream. -/
def rdLE (w : Nat) (bs : List Nat) : Option (Nat × List Nat) :=
  if w ≤ bs.length then some (deLE (bs.take w), bs.drop w) else none

/-- Reader of n payload words. -/
def rd_words : Nat → List Nat → Option (List Nat × List Nat)
  | 0, bs => some ([], bs)
  | n + 1, bs =>
      match rdLE 4 bs with
      | none => none
      | some (v, rest) =>
          match rd_words n rest with
          | none => none
          | some (vs, rest2) => some (v :: vs, rest2)

/-- Decoding of the HAS_HIP flag bit, as flags_byte & (1 << HAS_HIP). -/
def flags_has_hip (flags_byte : Nat) : Bool :=
  !(flags_byte &&& (1 <<< FLAG_HAS_HIP) == 0)

/-- Decoding of the HAS_TABLE flag bit. -/
def flags_has_table (flags_byte : Nat) : Bool :=
  !(flags_byte &&& (1 <<< FLAG_HAS_TABLE) == 0)

/-- Decoding of the HAS_WINDOW flag bit. -/
def flags_has_window (flags_byte : Nat) : Bool :=
  !(flags_byte &&& (1 <<< FLAG_HAS_WINDOW) == 0)

/-- The fields read by deserialize before any validation happens. -/
structure RawCpc where
  preamble_ints : Nat
  serial_version : Nat
  family_id : Nat
  lg_k : Nat
  first_interesting_column : Nat
  flags_byte : Nat
  seed_hash : Nat
  num_coupons : Nat
  table_num_entries : Nat
  kxp : Nat
  hip_est_accum : Nat
  window_payload : List Nat
  table_payload : List Nat
deriving Repr, DecidableEq

/-- Byte i of a stream (bytes are already below 256 when produced by the
writer; arbitrary input is masked). -/
def byteAt (bs : List Nat) (i : Nat) : Nat := (bs.getD i 0) % 256

/-- The reading phase of deserialize(std::istream&, uint64_t): fields in
stream order, with the conditional placements of table_num_entries, the two
HIP decision points, and the payloads; table_num_entries falls back to
num_coupons when there is no window.  The fixed-width reads are expressed by
index arithmetic over the byte list; a stream too short for the announced
fields is modelled as none (the byte-array overload of deserialize throws on
any size mismatch; the istream overload would read indeterminate values). -/
def parse_cpc (bs : List Nat) : Option (RawCpc × List Nat) :=
  if bs.length < 8 then none
  else
    let preamble_ints : Nat := byteAt bs 0
    let serial_version : Nat := byteAt bs 1
    let family_id : Nat := byteAt bs 2
    let lgk : Nat := byteAt bs 3
    let fic : Nat := byteAt bs 4
    let flags : Nat := byteAt bs 5
    let seed_hash : Nat := byteAt bs 6 + 256 * byteAt bs 7
    let h : Bool := flags_has_hip flags
    let t : Bool := flags_has_table flags
    let w : Bool := flags_has_window flags
    let rest : List Nat := bs.drop 8
    if t || w then
      let n2 : Nat := if t && w then 4 else 0
      let n3 : Nat := if t && w && h then 16 else 0
      let n4 : Nat := if t then 4 else 0
      let n5 : Nat := if w then 4 else 0
      let n6 : Nat := if h && !(t && w) then 16 else 0
      let pre_len : Nat := 4 + n2 + n3 + n4 + n5 + n6
      if rest.length < pre_len then none
      else
        let c : Nat := deLE (rest.take 4)
        let entries0 : Nat := if t && w then deLE ((rest.drop 4).take 4) else 0
        let o3 : Nat := 4 + n2
        let kxp1 : Nat := if t && w && h then deLE ((rest.drop o3).take 8) else 0
        let hip1 : Nat := if t && w && h then deLE ((rest.drop (o3 + 8)).take 8) else 0
        let o4 : Nat := o3 + n3
        let table_words : Nat := if t then deLE ((rest.drop o4).take 4) else 0
        let o5 : Nat := o4 + n4
        let window_words : Nat := if w then deLE ((rest.drop o5).take 4) else 0
        let o6 : Nat := o5 + n5
        let kxp2 : Nat := if h && !(t && w) then deLE ((rest.drop o6).take 8) else 0
        let hip2 : Nat := if h && !(t && w) then deLE ((rest.drop (o6 + 8)).take 8) else 0
        let pay : List Nat := rest.drop pre_len
        match (if w then rd_words window_words pay else some ([], pay)) with
        | none => none
        | some (wpl, pay2) =>
            match (if t then rd_words table_words pay2 else some ([], pay2)) with
            | none => none
            | some (tpl, pay3) =>
                some ({
                  preamble_ints := preamble_ints
                  serial_version := serial_version
                  family_id := family_id
                  lg_k := lgk
                  first_interesting_column := fic
                  flags_byte := flags
                  seed_hash := seed_hash
                  num_coupons := c
                  table_num_entries := if !w then c else entries0
                  kxp := if t && w then kxp1 else kxp2
                  hip_est_accum := if t && w then hip1 else hip2
                  window_payload := wpl
                  table_payload := tpl }, pay3)
    else
      some ({
        preamble_ints := preamble_ints
        serial_version := serial_version
        family_id := family_id
        lg_k := lgk
        first_interesting_column := fic
        flags_byte := flags
        seed_hash := seed_hash
        num_coupons := 0
        table_num_entries := 0
        kxp := 0
        hip_est_accum := 0
        window_payload := []
        table_payload := [] }, rest)

/-- The four validation checks of deserialize, in source order; a sketch is
built (by the private constructor, which derives window_offset and
was_merged) only when all pass. -/
def deserialize_stream (bs : List Nat) (seed : Nat) : Option Sketch :=
  match parse_cpc bs with
  | none => none
  | some (r, _) =>
      let has_hip : Bool := flags_has_hip r.flags_byte
      let has_table : Bool := flags_has_table r.flags_byte
      let has_window : Bool := flags_has_window r.flags_byte
      let expected : Nat := get_preamble_ints r.num_coupons has_hip has_table has_window
      if r.preamble_ints ≠ expected then none
      else if r.serial_version ≠ SERIAL_VERSION then none
      else if r.family_id ≠ FAMILY then none
      else if r.seed_hash ≠ compute_seed_hash seed then none
      else some {
        lg_k := r.lg_k
        seed := seed
        was_merged := !has_hip
        num_coupons := r.num_coupons
        surprising_value_table := uncompress_table r.table_payload
        sliding_window := uncompress_window r.window_payload
        window_offset := determine_correct_offset r.lg_k r.num_coupons
        first_interesting_column := r.first_interesting_column
        kxp := r.kxp
        hip_est_accum := r.hip_est_accum }

/-- Table pass of the bit matrix rebuild following the spec wording: the
flipped bit is a genuine 64-bit 1 << col.  This refinement reference exists
only to contrast build_bit_matrix, whose flip is computed at type int. -/
def bbm_apply_table_spec : List Nat → List Nat → List Nat
  | [], m => m
  | code :: rest, m =>
      bbm_apply_table_spec rest (listXorAt m (code >>> 6) (1 <<< (code &&& 63)))

/-- Bit matrix rebuild following the spec wording (default early-zone ones,
window bytes OR-ed in at window_offset, each surprising code XOR-flipping
its bit), with 64-bit shifts throughout. -/
def build_bit_matrix_spec (s : Sketch) : Option (List Nat) :=
  if s.window_offset > 56 then none
  else
    let k : Nat := 2 ^ s.lg_k
    let default_row : Nat := (1 <<< s.window_offset) - 1
    if s.num_coupons = 0 then some (List.replicate k default_row)
    else
      let m1 : List Nat :=
        if s.sliding_window.length > 0 then
          (List.range k).map
            (fun i => default_row ||| ((s.sliding_window.getD i 0) <<< s.window_offset))
        else List.replicate k default_row
      some (bbm_apply_table_spec s.surprising_value_table m1)

/-- Validation following the spec wording, over build_bit_matrix_spec. -/
def validate_spec (s : Sketch) : Option Bool :=
  (build_bit_matrix_spec s).map (fun m => count_bits_set_in_matrix m == s.num_coupons)

/-- A sliding-flavor state at lg_k = 26 exposing the uint32 wrap of
num_coupons << 3: num_coupons sits one short of the boundary
(27 + 8 window_offset) k / 8 at which move_window must run, and
window_offset = determine_correct_offset(lg_k, num_coupons) = 5 holds on
entry.  The table and window contents are immaterial to the control path
exercised (a late-zone insertion). -/
def c5_bug_state : Sketch :=
  { lg_k := 26
    seed := 0
    was_merged := false
    num_coupons := 562036735
    surprising_value_table := []
    sliding_window := List.replicate (2 ^ 26) 0
    window_offset := 5
    first_interesting_column := 0
    kxp := 0
    hip_est_accum := 0 }

/-- The four validation predicates applied by deserialize to the fields it
read: recomputed preamble_ints, serial version, family, and seed hash. -/
def cpc_checks_pass (r : RawCpc) (seed : Nat) : Prop :=
  r.preamble_ints = get_preamble_ints r.num_coupons (flags_has_hip r.flags_byte)
      (flags_has_table r.flags_byte) (flags_has_window r.flags_byte)
  ∧ r.serial_version = SERIAL_VERSION
  ∧ r.family_id = FAMILY
  ∧ r.seed_hash = compute_seed_hash seed

/-- Field conditions satisfied by every sketch reachable by updates from the
public constructor, under which the serialized image is well formed: range
bounds from the field types, no merge (updates never set was_merged), the
empty state carries no table, window or HIP history, and a populated state
stores its coupons somewhere. -/
def SerializableState (s : Sketch) : Prop :=
  4 ≤ s.lg_k ∧ s.lg_k ≤ 26
  ∧ s.was_merged = false
  ∧ s.num_coupons < 2 ^ 32
  ∧ s.first_interesting_column < 256
  ∧ s.kxp < 2 ^ 64
  ∧ s.hip_est_accum < 2 ^ 64
  ∧ (∀ x ∈ s.surprising_value_table, x < 2 ^ 32)
  ∧ (∀ x ∈ s.sliding_window, x < 2 ^ 32)
  ∧ s.surprising_value_table.length < 2 ^ 32
  ∧ s.sliding_window.length < 2 ^ 32
  ∧ (s.num_coupons = 0 →
      s.surprising_value_table = [] ∧ s.sliding_window = [] ∧ s.hip_est_accum = 0)
  ∧ (0 < s.num_coupons →
      s.surprising_value_table ≠ [] ∨ s.sliding_window ≠ [])

theorem leBytes_length (w n : Nat) : (leBytes w n).length = w := by
  induction w generalizing n with
  | zero => rfl
  | succ w ih => simp [leBytes, ih]

theorem deLE_leBytes (w n : Nat) : deLE (leBytes w n) = n % 2 ^ (8 * w) := by
  induction w generalizing n with
  | zero => simp [leBytes, deLE, Nat.mod_one]
  | succ w ih =>
      have h1 : (2 : Nat) ^ (8 * (w + 1)) = 256 * 2 ^ (8 * w) := by ring
      simp only [leBytes, deLE, ih]
      rw [h1, Nat.mod_mul]
      omega

theorem take_leBytes (w n : Nat) (R : List Nat) :
    (leBytes w n ++ R).take w = leBytes w n := by
  induction w generalizing n with
  | zero => simp [leBytes]
  | succ w ih => simp [leBytes, List.take_succ_cons, ih]

theorem drop_leBytes (w n : Nat) (R : List Nat) :
    (leBytes w n ++ R).drop w = R := by
  induction w generalizing n with
  | zero => simp [leBytes]
  | succ w ih => simp [leBytes, List.drop_succ_cons, ih]

theorem rdLE_exact (w n : Nat) (R : List Nat) :
    rdLE w (leBytes w n ++ R) = some (n % 2 ^ (8 * w), R) := by
  have hl : (leBytes w n).length = w := leBytes_length w n
  unfold rdLE
  rw [if_pos (by rw [List.length_append, hl]; omega)]
  rw [take_leBytes, drop_leBytes, deLE_leBytes]

theorem wr_words_cons (a : Nat) (as : List Nat) :
    wr_words (a :: as) = leBytes 4 a ++ wr_words as := by
  simp [wr_words]

theorem rd_words_exact (ws R : List Nat) (h : ∀ x ∈ ws, x < 2 ^ 32) :
    rd_words ws.length (wr_words ws ++ R) = some (ws, R) := by
  induction ws with
  | nil => simp [wr_words, rd_words]
  | cons a as ih =>
      have ha : a < 2 ^ 32 := h a (by simp)
      have ih2 := ih (fun x hx => h x (by simp [hx]))
      rw [List.length_cons, wr_words_cons, List.append_assoc]
      have ha4 : a % 2 ^ (8 * 4) = a := Nat.mod_eq_of_lt (by omega)
      simp only [rd_words, rdLE_exact 4 a, ih2, ha4]

theorem flags_decode (h t w : Bool) :
    flags_has_hip (flags_byte_of h t w) = h
    ∧ flags_has_table (flags_byte_of h t w) = t
    ∧ flags_has_window (flags_byte_of h t w) = w := by
  cases h <;> cases t <;> cases w <;> decide

theorem flags_byte_lt (h t w : Bool) : flags_byte_of h t w < 256 := by
  cases h <;> cases t <;> cases w <;> decide

/-- C3 counterexample: at the serializable combination num_coupons = 1 with
HAS_HIP, HAS_TABLE and HAS_WINDOW all set (any non-merged PINNED or SLIDING
sketch), get_preamble_ints returns 10, which is outside the claimed value
set 2, 3, 4, 5, 7, 8. -/
theorem c3_preamble_value_set_cex :
    get_preamble_ints 1 true true true = 10
    ∧ ¬(get_preamble_ints 1 true true true = 2 ∨ get_preamble_ints 1 true true true = 3
        ∨ get_preamble_ints 1 true true true = 4 ∨ get_preamble_ints 1 true true true = 5
        ∨ get_preamble_ints 1 true true true = 7 ∨ get_preamble_ints 1 true true true = 8) := by
  decide

/-- C3 amended: get_preamble_ints returns 2 whenever num_coupons = 0
(ignoring the flags), returns the decision-table sum 3 + 4 has_hip +
has_table + (has_table and has_window) + has_window when num_coupons > 0,
and its value always lies in 2, 3, 4, 5, 6, 7, 8, 10. -/
theorem c3_preamble_ints_amended (c : Nat) (h t w : Bool) :
    (c = 0 → get_preamble_ints c h t w = 2)
    ∧ (0 < c → get_preamble_ints c h t w
        = 3 + (if h then 4 else 0) + (if t then 1 else 0)
          + (if t && w then 1 else 0) + (if w then 1 else 0))
    ∧ (get_preamble_ints c h t w = 2 ∨ get_preamble_ints c h t w = 3
       ∨ get_preamble_ints c h t w = 4 ∨ get_preamble_ints c h t w = 5
       ∨ get_preamble_ints c h t w = 6 ∨ get_preamble_ints c h t w = 7
       ∨ get_preamble_ints c h t w = 8 ∨ get_preamble_ints c h t w = 10) := by
  cases h <;> cases t <;> cases w <;> cases c <;> simp [get_preamble_ints]

/-- C3 witness: the amended decision table evaluated at a sparse HIP sketch
(num_coupons = 5, table only). -/
theorem c3_preamble_ints_amended_witness : get_preamble_ints 5 true true false = 8 :=
  ((c3_preamble_ints_amended 5 true true false).2.1 (by decide)).trans (by decide)

/-- C4: determine_flavor partitions the coupon counts exactly at the
thresholds 3K/32, K/2 and 27K/8 (stated with the denominators cleared); the
bound on c keeps the 64-bit shifts of the source exact, and covers every
value of the uint32_t num_coupons field. -/
theorem c4_determine_flavor_thresholds (lg_k c : Nat)
    (hlo : 4 ≤ lg_k) (hhi : lg_k ≤ 26) (hc : c < 2 ^ 59) :
    (determine_flavor lg_k c = Flavor.EMPTY ↔ c = 0)
    ∧ (determine_flavor lg_k c = Flavor.SPARSE ↔ 0 < c ∧ c * 32 < 3 * 2 ^ lg_k)
    ∧ (determine_flavor lg_k c = Flavor.HYBRID ↔ 3 * 2 ^ lg_k ≤ c * 32 ∧ c * 2 < 2 ^ lg_k)
    ∧ (determine_flavor lg_k c = Flavor.PINNED ↔ 2 ^ lg_k ≤ c * 2 ∧ c * 8 < 27 * 2 ^ lg_k)
    ∧ (determine_flavor lg_k c = Flavor.SLIDING ↔ 27 * 2 ^ lg_k ≤ c * 8) := by
  have hk : 16 ≤ 2 ^ lg_k := by
    calc (16 : Nat) = 2 ^ 4 := by norm_num
    _ ≤ 2 ^ lg_k := Nat.pow_le_pow_right (by norm_num) hlo
  have e2 : (c * 2) % 2 ^ 64 = c * 2 := Nat.mod_eq_of_lt (by omega)
  have e8 : (c * 8) % 2 ^ 64 = c * 8 := Nat.mod_eq_of_lt (by omega)
  have e32 : (c * 32) % 2 ^ 64 = c * 32 := Nat.mod_eq_of_lt (by omega)
  simp only [determine_flavor, e2, e8, e32]
  split_ifs with h1 h2 h3 h4 <;> simp_all <;> omega

/-- C4 witness: 100 coupons at lg_k = 11 sit in the SPARSE band. -/
theorem c4_determine_flavor_witness :
    determine_flavor 11 100 = Flavor.SPARSE ↔ 0 < 100 ∧ 100 * 32 < 3 * 2 ^ 11 :=
  (c4_determine_flavor_thresholds 11 100 (by decide) (by decide) (by decide)).2.1

theorem sext_lt (w v : Nat) (hw : w ≤ 64) : sext w v < 2 ^ 64 := by
  have h1 : v % 2 ^ w < 2 ^ w := Nat.mod_lt _ (Nat.two_pow_pos w)
  have h2 : 2 ^ w ≤ 2 ^ 64 := Nat.pow_le_pow_right (by norm_num) hw
  simp only [sext]
  split_ifs <;> omega

/-- C6: row_col_from_two_hashes returns (row << 6) | col with col the
clipped leading-zero count of the second hash and row the low lg_k bits of
the first, with bit 6 toggled when the packed code would collide with the
sentinel 0xFFFFFFFF; the sentinel itself is never returned. -/
theorem c6_row_col_from_two_hashes_correct (h0 h1 lg_k : Nat)
    (hlo : 4 ≤ lg_k) (hhi : lg_k ≤ 26) :
    (row_col_from_two_hashes h0 h1 lg_k
      = some (if ((h0 % 2 ^ lg_k) <<< 6) ||| min (clz64 h1) 63 = 4294967295
              then (((h0 % 2 ^ lg_k) <<< 6) ||| min (clz64 h1) 63) ^^^ (1 <<< 6)
              else ((h0 % 2 ^ lg_k) <<< 6) ||| min (clz64 h1) 63))
    ∧ ∀ r, row_col_from_two_hashes h0 h1 lg_k = some r → r ≠ 4294967295 := by
  have hg : ¬ lg_k > 26 := by omega
  have hand : h0 &&& (2 ^ lg_k - 1) = h0 % 2 ^ lg_k := Nat.and_pow_two_sub_one_eq_mod h0 lg_k
  have hmin : (if clz64 h1 > 63 then 63 else clz64 h1) = min (clz64 h1) 63 := by
    rcases Nat.lt_or_ge 63 (clz64 h1) with h | h
    · rw [if_pos h, Nat.min_eq_right (Nat.le_of_lt h)]
    · rw [if_neg (by omega), Nat.min_eq_left h]
  have hmain : row_col_from_two_hashes h0 h1 lg_k
      = some (if ((h0 % 2 ^ lg_k) <<< 6) ||| min (clz64 h1) 63 = 4294967295
              then (((h0 % 2 ^ lg_k) <<< 6) ||| min (clz64 h1) 63) ^^^ (1 <<< 6)
              else ((h0 % 2 ^ lg_k) <<< 6) ||| min (clz64 h1) 63) := by
    simp only [row_col_from_two_hashes, if_neg hg, hand, hmin]
  refine ⟨hmain, ?_⟩
  intro r hr
  rw [hmain, Option.some.injEq] at hr
  by_cases hb : ((h0 % 2 ^ lg_k) <<< 6) ||| min (clz64 h1) 63 = 4294967295
  · rw [← hr, if_pos hb, hb]
    decide
  · rw [← hr, if_neg hb]
    exact hb

/-- C6 witness: both hashes zero at lg_k = 4 give row 0 and col 63, hence
code 63, which is not the sentinel. -/
theorem c6_row_col_witness :
    row_col_from_two_hashes 0 0 4 = some 63 ∧ (63 : Nat) ≠ 4294967295 := by
  have h := c6_row_col_from_two_hashes_correct 0 0 4 (by decide) (by decide)
  exact ⟨h.1.trans (by decide), h.2 63 (h.1.trans (by decide))⟩

/-- C9: every fixed-width integer update overload feeds the hash the 8-byte
little-endian image of the sign-extended int64_t value, and for
uint32_t values at or above 2^31 those bytes differ from the bytes the
uint64_t overload would feed for the same numeric value. -/
theorem c9_integer_overloads :
    (∀ s v, v < 2 ^ 32 → update_u32 s v = update_mem s (leBytes 8 (sext 32 v)))
    ∧ (∀ s p, p < 2 ^ 32 → update_i32 s p = update_mem s (leBytes 8 (sext 32 p)))
    ∧ (∀ s v, v < 2 ^ 16 → update_u16 s v = update_mem s (leBytes 8 (sext 16 v)))
    ∧ (∀ s p, p < 2 ^ 16 → update_i16 s p = update_mem s (leBytes 8 (sext 16 p)))
    ∧ (∀ s v, v < 2 ^ 8 → update_u8 s v = update_mem s (leBytes 8 (sext 8 v)))
    ∧ (∀ s p, p < 2 ^ 8 → update_i8 s p = update_mem s (leBytes 8 (sext 8 p)))
    ∧ (∀ v, 2 ^ 31 ≤ v → v < 2 ^ 32 →
        leBytes 8 (sext 32 v) ≠ leBytes 8 (v % 2 ^ 64)) := by
  refine ⟨?_, ?_, ?_, ?_, ?_, ?_, ?_⟩
  · intro s v hv
    simp only [update_u32, update_i32, update_i64, Nat.mod_eq_of_lt hv,
      Nat.mod_eq_of_lt (sext_lt 32 v (by norm_num))]
  · intro s p hp
    simp only [update_i32, update_i64, Nat.mod_eq_of_lt (sext_lt 32 p (by norm_num))]
  · intro s v hv
    simp only [update_u16, update_i16, update_i64, Nat.mod_eq_of_lt hv,
      Nat.mod_eq_of_lt (sext_lt 16 v (by norm_num))]
  · intro s p hp
    simp only [update_i16, update_i64, Nat.mod_eq_of_lt (sext_lt 16 p (by norm_num))]
  · intro s v hv
    simp only [update_u8, update_i8, update_i64, Nat.mod_eq_of_lt hv,
      Nat.mod_eq_of_lt (sext_lt 8 v (by norm_num))]
  · intro s p hp
    simp only [update_i8, update_i64, Nat.mod_eq_of_lt (sext_lt 8 p (by norm_num))]
  · intro v hlo hhi heq
    have hv64 : v % 2 ^ 64 = v := Nat.mod_eq_of_lt (by omega)
    have hv32 : v % 2 ^ 32 = v := Nat.mod_eq_of_lt hhi
    rw [hv64] at heq
    simp only [sext, hv32] at heq
    rw [if_neg (by omega)] at heq
    simp only [leBytes, List.cons.injEq, and_true] at heq
    omega

/-- C9 witness: at v = 2^31 the uint32_t overload hashes the sign-extended
bytes, which differ from the uint64_t bytes for the same value. -/
theorem c9_integer_overloads_witness :
    update_u32 (⟨4, 0, false, 0, [], [], 0, 0, 0, 0⟩ : Sketch) 2147483648
      = update_mem ⟨4, 0, false, 0, [], [], 0, 0, 0, 0⟩ (leBytes 8 (sext 32 2147483648))
    ∧ leBytes 8 (sext 32 2147483648) ≠ leBytes 8 (2147483648 % 2 ^ 64) :=
  ⟨c9_integer_overloads.1 _ 2147483648 (by decide),
   c9_integer_overloads.2.2.2.2.2.2 2147483648 (by decide) (by decide)⟩

/-- C10: update(double) canonicalizes before hashing: negative zero updates
exactly like positive zero, every NaN pattern updates like the fixed
pattern 0x7ff8000000000000, and update(float) is the double update of the
exactly converted value. -/
theorem c10_update_double_canonicalization :
    (∀ s, update_double s (2 ^ 63) = update_double s 0)
    ∧ (∀ s bits, is_nan_double bits = true →
        update_double s bits = update_double s 9221120237041090560)
    ∧ (∀ s f, update_float s f = update_double s (float_to_double_bits f)) := by
  refine ⟨?_, ?_, ?_⟩
  · intro s
    have hc : canonical_double (2 ^ 63) = canonical_double 0 := by decide
    simp only [update_double, hc]
  · intro s bits hnan
    have hz : is_zero_double bits = false := by
      rcases Bool.eq_false_or_eq_true (is_zero_double bits) with h | h
      · exfalso
        have h2 : bits = 0 ∨ bits = 2 ^ 63 := by simpa [is_zero_double] using h
        rcases h2 with rfl | rfl
        · exact absurd hnan (by decide)
        · exact absurd hnan (by decide)
      · exact h
    have hc : canonical_double bits = 9221120237041090560 := by
      simp [canonical_double, hz, hnan]
    have hc2 : canonical_double 9221120237041090560 = 9221120237041090560 := by decide
    simp only [update_double, hc, hc2]
  · intro s f
    rfl

/-- C10 witness: the quiet NaN pattern 0x7ff0000000000001 updates exactly
like the canonical NaN pattern. -/
theorem c10_update_double_witness :
    update_double (⟨4, 0, false, 0, [], [], 0, 0, 0, 0⟩ : Sketch) 9218868437227405313
      = update_double ⟨4, 0, false, 0, [], [], 0, 0, 0, 0⟩ 9221120237041090560 :=
  c10_update_double_canonicalization.2.1 _ _ (by decide)

/-- C8 counterexample: update(const void*, int) with size 0 is not a no-op:
on a fresh sketch it hashes the empty buffer and collects a coupon, so
num_coupons moves from 0 to 1. -/
theorem c8_empty_buffer_cex :
    ((cpc_sketch_new 4 0).bind (fun s => (update_mem s []).map Sketch.num_coupons))
      = some 1
    ∧ ((cpc_sketch_new 4 0).map Sketch.num_coupons) = some 0 := by
  decide

/-- C8 amended: only update(const std::string&) treats the empty buffer as a
no-op; update(const void*, int) with size 0 hashes the empty buffer like any
other input (on a fresh sketch this collects one coupon, whatever the hash
values are). -/
theorem c8_empty_buffer_amended :
    (∀ s, update_string s [] = some s)
    ∧ (∀ lgk seed s, cpc_sketch_new lgk seed = some s →
        (update_mem s []).map Sketch.num_coupons = some 1) := by
  constructor
  · intro s
    rfl
  · intro lgk seed s hs
    by_cases hrange : lgk < CPC_MIN_LG_K ∨ lgk > CPC_MAX_LG_K
    · rw [cpc_sketch_new, if_pos hrange] at hs
      exact absurd hs (by simp)
    · rw [cpc_sketch_new, if_neg hrange] at hs
      simp only [CPC_MIN_LG_K, CPC_MAX_LG_K, not_or, not_lt] at hrange
      have hk : 16 ≤ 2 ^ lgk := by
        calc (16 : Nat) = 2 ^ 4 := by norm_num
        _ ≤ 2 ^ lgk := Nat.pow_le_pow_right (by norm_num) hrange.1
      simp only [Option.some.injEq] at hs
      subst hs
      simp only [update_mem, row_col_from_two_hashes, if_neg (show ¬ lgk > 26 by omega)]
      simp only [row_col_update, update_sparse, maybe_insert, update_hip]
      rw [if_neg (Nat.not_lt_zero _)]
      simp only [List.length_nil, if_pos rfl]
      rw [if_neg (show ¬ (0 * 32) % 2 ^ 32 ≥ 3 * 2 ^ lgk by omega)]
      rw [if_neg (List.not_mem_nil _)]
      simp only []
      rw [if_neg (show ¬ ((0 + 1) % 2 ^ 32 * 32) % 2 ^ 32 ≥ 3 * 2 ^ lgk by omega)]
      simp

/-- C8 witness for the amended claim, at lg_k = 4 and seed 0. -/
theorem c8_empty_buffer_witness :
    (update_mem (⟨4, 0, false, 0, [], [], 0, 0, double_bits_of_pow2 4, 0⟩ : Sketch) []).map
        Sketch.num_coupons = some 1 :=
  c8_empty_buffer_amended.2 4 0 _ (by decide)

/-- C1 evaluated where the code deviates from it: a fresh lg_k = 4 sketch
receiving the single coupon row 0, col 31 (one row_col_update call) has
num_coupons = 1, but validate() computes the flip 1 << 31 at type int, sign
extends it to 0xFFFFFFFF80000000, sets 33 bits in row 0 of the matrix, and
returns false; the rebuild following the spec wording (64-bit shift)
confirms the matrix popcount equals num_coupons. -/
theorem c1_validate_popcount_bug :
    ((cpc_sketch_new 4 0).bind (fun s => (row_col_update s 31).bind validate)) = some false
    ∧ ((cpc_sketch_new 4 0).bind (fun s => (row_col_update s 31).map Sketch.num_coupons))
        = some 1
    ∧ ((cpc_sketch_new 4 0).bind (fun s => (row_col_update s 31).bind validate_spec))
        = some true := by
  decide

theorem c5_stall_core (W : List Nat) (hW : W.length = 2 ^ 26) :
    ((row_col_update (⟨26, 0, false, 562036735, [], W, 5, 0, 0, 0⟩ : Sketch) 63).map
        (fun s2 => (s2.window_offset, s2.num_coupons))) = some (5, 562036736) := by
  simp only [row_col_update]
  rw [if_neg (by decide), if_neg (by simp [hW])]
  simp only [update_windowed]
  rw [if_neg (by norm_num), if_neg (by norm_num), if_neg (by norm_num)]
  simp only [uw_branch]
  rw [show ((63 : Nat) &&& 63) = 63 from rfl]
  rw [if_neg (by norm_num), if_neg (by norm_num)]
  simp only [maybe_insert]
  rw [if_neg (List.not_mem_nil 63)]
  simp only [uw_finish, update_hip, hip_regs_update]
  norm_num

/-- C5 evaluated where the code deviates from it: on the lg_k = 26 state
c5_bug_state the offset invariant holds on entry (window_offset = 5 =
determine_correct_offset), and a single novel late-zone row_col_update(63)
raises num_coupons to 562036736, exactly the (27 + 8 window_offset) K / 8
boundary at which move_window must run; but num_coupons << 3 is computed in
32-bit unsigned arithmetic (wrapping to 201326592 instead of 4496293888),
the move trigger misfires, and the returned state keeps window_offset = 5
while determine_correct_offset now gives 6. -/
theorem c5_window_offset_stall_bug :
    c5_bug_state.window_offset = 5
    ∧ determine_correct_offset c5_bug_state.lg_k c5_bug_state.num_coupons = 5
    ∧ ((row_col_update c5_bug_state 63).map
        (fun s2 => (s2.window_offset, s2.num_coupons))) = some (5, 562036736)
    ∧ determine_correct_offset 26 562036736 = 6 := by
  refine ⟨rfl, by decide, ?_, by decide⟩
  exact c5_stall_core (List.replicate (2 ^ 26) 0) (List.length_replicate _ _)

/-- C7: deserialize raises (none) whenever the parsed preamble_ints differs
from the value recomputed from num_coupons and the flags byte, or the serial
version, family byte or seed hash mismatch; and a sketch is returned only
when all four checks pass. -/
theorem c7_deserialize_validation (bs : List Nat) (seed : Nat) :
    (∀ r rest, parse_cpc bs = some (r, rest) →
      ¬ cpc_checks_pass r seed → deserialize_stream bs seed = none)
    ∧ (∀ s, deserialize_stream bs seed = some s →
        ∀ r rest, parse_cpc bs = some (r, rest) → cpc_checks_pass r seed) := by
  constructor
  · intro r rest hp hnot
    simp only [deserialize_stream, hp]
    split_ifs with h1 h2 h3 h4
    · rfl
    · rfl
    · rfl
    · rfl
    · exact absurd ⟨not_not.mp h1, not_not.mp h2, not_not.mp h3, not_not.mp h4⟩ hnot
  · intro s hs r rest hp
    simp only [deserialize_stream, hp] at hs
    split_ifs at hs with h1 h2 h3 h4
    exact ⟨not_not.mp h1, not_not.mp h2, not_not.mp h3, not_not.mp h4⟩

/-- C7 witness: eight header bytes carrying preamble_ints = 9 instead of the
recomputed 2 are rejected. -/
theorem c7_deserialize_validation_witness :
    deserialize_stream [9, 1, 16, 11, 0, 3, 0, 0] 0 = none :=
  (c7_deserialize_validation [9, 1, 16, 11, 0, 3, 0, 0] 0).1
    ⟨9, 1, 16, 11, 0, 3, 0, 0, 0, 0, 0, [], []⟩ []
    (by decide)
    (by unfold cpc_checks_pass; decide)


theorem dco_zero (lgk : Nat) : determine_correct_offset lgk 0 = 0 := by
  simp only [determine_correct_offset]
  norm_num

theorem c2_case_a (s : Sketch) (hlo : 4 ≤ s.lg_k) (hhi : s.lg_k ≤ 26)
    (hmg : s.was_merged = false) (hfic : s.first_interesting_column < 256)
    (hC0 : s.num_coupons = 0) (hT : s.surprising_value_table = [])
    (hW : s.sliding_window = []) :
    serialize s = [2, 1, 16, s.lg_k, s.first_interesting_column, 3,
      s.seed % 65536 % 256, s.seed % 65536 / 256 % 256] := by
  have hficm : s.first_interesting_column % 256 = s.first_interesting_column :=
    Nat.mod_eq_of_lt hfic
  have hlgm : s.lg_k % 256 = s.lg_k := Nat.mod_eq_of_lt (by omega)
  simp [serialize, compress, hT, hW, hmg, hC0, flags_byte_of, FLAG_IS_COMPRESSED,
    FLAG_HAS_HIP, FLAG_HAS_TABLE, FLAG_HAS_WINDOW, get_preamble_ints, leBytes,
    compute_seed_hash, SERIAL_VERSION, FAMILY, hficm, hlgm]

theorem c2_case_a_full (s : Sketch) (hlo : 4 ≤ s.lg_k) (hhi : s.lg_k ≤ 26)
    (hmg : s.was_merged = false) (hfic : s.first_interesting_column < 256)
    (hC0 : s.num_coupons = 0) (hT : s.surprising_value_table = [])
    (hW : s.sliding_window = []) :
    deserialize_stream (serialize s) s.seed
      = some ⟨s.lg_k, s.seed, false, 0, [], [], 0, s.first_interesting_column, 0, 0⟩ := by
  have hficm : s.first_interesting_column % 256 = s.first_interesting_column :=
    Nat.mod_eq_of_lt hfic
  have hlgm : s.lg_k % 256 = s.lg_k := Nat.mod_eq_of_lt (by omega)
  rw [c2_case_a s hlo hhi hmg hfic hC0 hT hW]
  simp [deserialize_stream, parse_cpc, byteAt, flags_has_hip, flags_has_table,
    flags_has_window, FLAG_HAS_HIP, FLAG_HAS_TABLE, FLAG_HAS_WINDOW,
    get_preamble_ints, SERIAL_VERSION, FAMILY, compute_seed_hash,
    uncompress_table, uncompress_window, dco_zero, hficm, hlgm,
    show ((3 : Nat) &&& 4) = 0 from rfl, show ((3 : Nat) &&& 8) = 0 from rfl,
    show ((3 : Nat) &&& 2) = 2 from rfl]
  omega

theorem drop_leBytes_add (w n k : Nat) (R : List Nat) :
    (leBytes w n ++ R).drop (w + k) = R.drop k := by
  induction w generalizing n with
  | zero => simp [leBytes]
  | succ w ih =>
      rw [show w + 1 + k = (w + k) + 1 from by omega]
      simp [leBytes, List.drop_succ_cons, ih]

theorem isEmpty_false_of_ne_nil (l : List Nat) (h : l ≠ []) : l.isEmpty = false := by
  cases l with
  | nil => exact absurd rfl h
  | cons a as => rfl

theorem wr_words_length (ws : List Nat) : (wr_words ws).length = 4 * ws.length := by
  induction ws with
  | nil => rfl
  | cons a as ih =>
      rw [wr_words_cons, List.length_append, leBytes_length, ih, List.length_cons]
      omega

theorem c2_case_b_ser (s : Sketch) (hlo : 4 ≤ s.lg_k) (hhi : s.lg_k ≤ 26)
    (hmg : s.was_merged = false) (hfic : s.first_interesting_column < 256)
    (hC0 : s.num_coupons ≠ 0) (hT : s.surprising_value_table ≠ [])
    (hW : s.sliding_window = []) :
    serialize s = 8 :: 1 :: 16 :: s.lg_k :: s.first_interesting_column :: 7 ::
      (s.seed % 65536 % 256) :: (s.seed % 65536 / 256 % 256) ::
      (leBytes 4 s.num_coupons ++ (leBytes 4 s.surprising_value_table.length
        ++ (leBytes 8 s.kxp ++ (leBytes 8 s.hip_est_accum
        ++ wr_words s.surprising_value_table)))) := by
  have hficm : s.first_interesting_column % 256 = s.first_interesting_column :=
    Nat.mod_eq_of_lt hfic
  have hlgm : s.lg_k % 256 = s.lg_k := Nat.mod_eq_of_lt (by omega)
  have hTne : s.surprising_value_table.isEmpty = false := isEmpty_false_of_ne_nil _ hT
  simp [serialize, compress, hTne, hW, hmg, hC0, flags_byte_of, FLAG_IS_COMPRESSED,
    FLAG_HAS_HIP, FLAG_HAS_TABLE, FLAG_HAS_WINDOW, get_preamble_ints, leBytes,
    compute_seed_hash, SERIAL_VERSION, FAMILY, hficm, hlgm, Nat.pos_of_ne_zero]

theorem c2_case_b_full (s : Sketch) (hlo : 4 ≤ s.lg_k) (hhi : s.lg_k ≤ 26)
    (hmg : s.was_merged = false) (hfic : s.first_interesting_column < 256)
    (hC : s.num_coupons < 2 ^ 32) (hkxp : s.kxp < 2 ^ 64) (hhip : s.hip_est_accum < 2 ^ 64)
    (htb : ∀ x ∈ s.surprising_value_table, x < 2 ^ 32)
    (htl : s.surprising_value_table.length < 2 ^ 32)
    (hC0 : s.num_coupons ≠ 0) (hT : s.surprising_value_table ≠ [])
    (hW : s.sliding_window = []) :
    deserialize_stream (serialize s) s.seed
      = some ⟨s.lg_k, s.seed, false, s.num_coupons, s.surprising_value_table, [],
          determine_correct_offset s.lg_k s.num_coupons,
          s.first_interesting_column, s.kxp, s.hip_est_accum⟩ := by
  have hficm : s.first_interesting_column % 256 = s.first_interesting_column :=
    Nat.mod_eq_of_lt hfic
  have hlgm : s.lg_k % 256 = s.lg_k := Nat.mod_eq_of_lt (by omega)
  have hCm : s.num_coupons % 2 ^ (8 * 4) = s.num_coupons := Nat.mod_eq_of_lt (by omega)
  have hTLm : s.surprising_value_table.length % 2 ^ (8 * 4)
      = s.surprising_value_table.length := Nat.mod_eq_of_lt (by omega)
  have hKm : s.kxp % 2 ^ (8 * 8) = s.kxp := Nat.mod_eq_of_lt (by omega)
  have hHm : s.hip_est_accum % 2 ^ (8 * 8) = s.hip_est_accum := Nat.mod_eq_of_lt (by omega)
  have hd4 : (leBytes 4 s.num_coupons ++ (leBytes 4 s.surprising_value_table.length
        ++ (leBytes 8 s.kxp ++ (leBytes 8 s.hip_est_accum
        ++ wr_words s.surprising_value_table)))).drop 4
      = leBytes 4 s.surprising_value_table.length
        ++ (leBytes 8 s.kxp ++ (leBytes 8 s.hip_est_accum
        ++ wr_words s.surprising_value_table)) := drop_leBytes 4 _ _
  have hd8 : (leBytes 4 s.num_coupons ++ (leBytes 4 s.surprising_value_table.length
        ++ (leBytes 8 s.kxp ++ (leBytes 8 s.hip_est_accum
        ++ wr_words s.surprising_value_table)))).drop 8
      = leBytes 8 s.kxp ++ (leBytes 8 s.hip_est_accum
        ++ wr_words s.surprising_value_table) := by
    rw [show (8 : Nat) = 4 + 4 from rfl, drop_leBytes_add, drop_leBytes]
  have hd16 : (leBytes 4 s.num_coupons ++ (leBytes 4 s.surprising_value_table.length
        ++ (leBytes 8 s.kxp ++ (leBytes 8 s.hip_est_accum
        ++ wr_words s.surprising_value_table)))).drop 16
      = leBytes 8 s.hip_est_accum ++ wr_words s.surprising_value_table := by
    rw [show (16 : Nat) = 4 + 12 from rfl, drop_leBytes_add,
      show (12 : Nat) = 4 + 8 from rfl, drop_leBytes_add, drop_leBytes]
  have hd24 : (leBytes 4 s.num_coupons ++ (leBytes 4 s.surprising_value_table.length
        ++ (leBytes 8 s.kxp ++ (leBytes 8 s.hip_est_accum
        ++ wr_words s.surprising_value_table)))).drop 24
      = wr_words s.surprising_value_table := by
    rw [show (24 : Nat) = 4 + 20 from rfl, drop_leBytes_add,
      show (20 : Nat) = 4 + 16 from rfl, drop_leBytes_add,
      show (16 : Nat) = 8 + 8 from rfl, drop_leBytes_add, drop_leBytes]
  have hrd : rd_words s.surprising_value_table.length (wr_words s.surprising_value_table)
      = some (s.surprising_value_table, []) := by
    have h2 := rd_words_exact s.surprising_value_table [] htb
    simpa using h2
  rw [c2_case_b_ser s hlo hhi hmg hfic hC0 hT hW]
  simp [deserialize_stream, parse_cpc, byteAt, flags_has_hip, flags_has_table,
    flags_has_window, FLAG_HAS_HIP, FLAG_HAS_TABLE, FLAG_HAS_WINDOW,
    get_preamble_ints, SERIAL_VERSION, FAMILY, compute_seed_hash,
    uncompress_table, uncompress_window, hficm, hlgm,
    hd4, hd8, hd16, hd24, hrd, take_leBytes, deLE_leBytes, hCm, hTLm, hKm, hHm,
    List.length_append, leBytes_length, wr_words_length, hC0,
    show ((7 : Nat) &&& 4) = 4 from rfl, show ((7 : Nat) &&& 8) = 0 from rfl,
    show ((7 : Nat) &&& 2) = 2 from rfl]
  rw [if_neg (by omega), if_neg (by omega)]
  have hCpos : 0 < s.num_coupons := Nat.pos_of_ne_zero hC0
  have hCm2 : s.num_coupons % 4294967296 = s.num_coupons := Nat.mod_eq_of_lt (by omega)
  have hTLm2 : s.surprising_value_table.length % 4294967296
      = s.surprising_value_table.length := Nat.mod_eq_of_lt (by omega)
  have hKm2 : s.kxp % 18446744073709551616 = s.kxp := Nat.mod_eq_of_lt (by omega)
  have hHm2 : s.hip_est_accum % 18446744073709551616 = s.hip_est_accum :=
    Nat.mod_eq_of_lt (by omega)
  simp [hCm2, hTLm2, hKm2, hHm2, hrd, hCpos,
    show ((7 : Nat) &&& 4) = 4 from rfl, show ((7 : Nat) &&& 8) = 0 from rfl,
    show ((7 : Nat) &&& 2) = 2 from rfl]
  omega

theorem c2_case_c_ser (s : Sketch) (hlo : 4 ≤ s.lg_k) (hhi : s.lg_k ≤ 26)
    (hmg : s.was_merged = false) (hfic : s.first_interesting_column < 256)
    (hC0 : s.num_coupons ≠ 0) (hT : s.surprising_value_table = [])
    (hW : s.sliding_window ≠ []) :
    serialize s = 8 :: 1 :: 16 :: s.lg_k :: s.first_interesting_column :: 11 ::
      (s.seed % 65536 % 256) :: (s.seed % 65536 / 256 % 256) ::
      (leBytes 4 s.num_coupons ++ (leBytes 4 s.sliding_window.length
        ++ (leBytes 8 s.kxp ++ (leBytes 8 s.hip_est_accum
        ++ wr_words s.sliding_window)))) := by
  have hficm : s.first_interesting_column % 256 = s.first_interesting_column :=
    Nat.mod_eq_of_lt hfic
  have hlgm : s.lg_k % 256 = s.lg_k := Nat.mod_eq_of_lt (by omega)
  have hWne : s.sliding_window.isEmpty = false := isEmpty_false_of_ne_nil _ hW
  simp [serialize, compress, hWne, hT, hmg, hC0, flags_byte_of, FLAG_IS_COMPRESSED,
    FLAG_HAS_HIP, FLAG_HAS_TABLE, FLAG_HAS_WINDOW, get_preamble_ints, leBytes,
    compute_seed_hash, SERIAL_VERSION, FAMILY, hficm, hlgm, Nat.pos_of_ne_zero]

theorem c2_case_c_full (s : Sketch) (hlo : 4 ≤ s.lg_k) (hhi : s.lg_k ≤ 26)
    (hmg : s.was_merged = false) (hfic : s.first_interesting_column < 256)
    (hC : s.num_coupons < 2 ^ 32) (hkxp : s.kxp < 2 ^ 64) (hhip : s.hip_est_accum < 2 ^ 64)
    (hwb : ∀ x ∈ s.sliding_window, x < 2 ^ 32)
    (hwl : s.sliding_window.length < 2 ^ 32)
    (hC0 : s.num_coupons ≠ 0) (hT : s.surprising_value_table = [])
    (hW : s.sliding_window ≠ []) :
    deserialize_stream (serialize s) s.seed
      = some ⟨s.lg_k, s.seed, false, s.num_coupons, [], s.sliding_window,
          determine_correct_offset s.lg_k s.num_coupons,
          s.first_interesting_column, s.kxp, s.hip_est_accum⟩ := by
  have hficm : s.first_interesting_column % 256 = s.first_interesting_column :=
    Nat.mod_eq_of_lt hfic
  have hlgm : s.lg_k % 256 = s.lg_k := Nat.mod_eq_of_lt (by omega)
  have hCm : s.num_coupons % 2 ^ (8 * 4) = s.num_coupons := Nat.mod_eq_of_lt (by omega)
  have hWLm : s.sliding_window.length % 2 ^ (8 * 4)
      = s.sliding_window.length := Nat.mod_eq_of_lt (by omega)
  have hKm : s.kxp % 2 ^ (8 * 8) = s.kxp := Nat.mod_eq_of_lt (by omega)
  have hHm : s.hip_est_accum % 2 ^ (8 * 8) = s.hip_est_accum := Nat.mod_eq_of_lt (by omega)
  have hd4 : (leBytes 4 s.num_coupons ++ (leBytes 4 s.sliding_window.length
        ++ (leBytes 8 s.kxp ++ (leBytes 8 s.hip_est_accum
        ++ wr_words s.sliding_window)))).drop 4
      = leBytes 4 s.sliding_window.length
        ++ (leBytes 8 s.kxp ++ (leBytes 8 s.hip_est_accum
        ++ wr_words s.sliding_window)) := drop_leBytes 4 _ _
  have hd8 : (leBytes 4 s.num_coupons ++ (leBytes 4 s.sliding_window.length
        ++ (leBytes 8 s.kxp ++ (leBytes 8 s.hip_est_accum
        ++ wr_words s.sliding_window)))).drop 8
      = leBytes 8 s.kxp ++ (leBytes 8 s.hip_est_accum
        ++ wr_words s.sliding_window) := by
    rw [show (8 : Nat) = 4 + 4 from rfl, drop_leBytes_add, drop_leBytes]
  have hd16 : (leBytes 4 s.num_coupons ++ (leBytes 4 s.sliding_window.length
        ++ (leBytes 8 s.kxp ++ (leBytes 8 s.hip_est_accum
        ++ wr_words s.sliding_window)))).drop 16
      = leBytes 8 s.hip_est_accum ++ wr_words s.sliding_window := by
    rw [show (16 : Nat) = 4 + 12 from rfl, drop_leBytes_add,
      show (12 : Nat) = 4 + 8 from rfl, drop_leBytes_add, drop_leBytes]
  have hd24 : (leBytes 4 s.num_coupons ++ (leBytes 4 s.sliding_window.length
        ++ (leBytes 8 s.kxp ++ (leBytes 8 s.hip_est_accum
        ++ wr_words s.sliding_window)))).drop 24
      = wr_words s.sliding_window := by
    rw [show (24 : Nat) = 4 + 20 from rfl, drop_leBytes_add,
      show (20 : Nat) = 4 + 16 from rfl, drop_leBytes_add,
      show (16 : Nat) = 8 + 8 from rfl, drop_leBytes_add, drop_leBytes]
  have hrd : rd_words s.sliding_window.length (wr_words s.sliding_window)
      = some (s.sliding_window, []) := by
    have h2 := rd_words_exact s.sliding_window [] hwb
    simpa using h2
  rw [c2_case_c_ser s hlo hhi hmg hfic hC0 hT hW]
  simp [deserialize_stream, parse_cpc, byteAt, flags_has_hip, flags_has_table,
    flags_has_window, FLAG_HAS_HIP, FLAG_HAS_TABLE, FLAG_HAS_WINDOW,
    get_preamble_ints, SERIAL_VERSION, FAMILY, compute_seed_hash,
    uncompress_table, uncompress_window, hficm, hlgm,
    hd4, hd8, hd16, hd24, hrd, take_leBytes, deLE_leBytes, hCm, hWLm, hKm, hHm,
    List.length_append, leBytes_length, wr_words_length, hC0,
    show ((11 : Nat) &&& 4) = 0 from rfl, show ((11 : Nat) &&& 8) = 8 from rfl,
    show ((11 : Nat) &&& 2) = 2 from rfl]
  rw [if_neg (by omega), if_neg (by omega)]
  have hCpos : 0 < s.num_coupons := Nat.pos_of_ne_zero hC0
  have hCm2 : s.num_coupons % 4294967296 = s.num_coupons := Nat.mod_eq_of_lt (by omega)
  have hWLm2 : s.sliding_window.length % 4294967296
      = s.sliding_window.length := Nat.mod_eq_of_lt (by omega)
  have hKm2 : s.kxp % 18446744073709551616 = s.kxp := Nat.mod_eq_of_lt (by omega)
  have hHm2 : s.hip_est_accum % 18446744073709551616 = s.hip_est_accum :=
    Nat.mod_eq_of_lt (by omega)
  simp [hCm2, hWLm2, hKm2, hHm2, hrd, hCpos,
    show ((11 : Nat) &&& 4) = 0 from rfl, show ((11 : Nat) &&& 8) = 8 from rfl,
    show ((11 : Nat) &&& 2) = 2 from rfl]
  omega

theorem c2_case_d_ser (s : Sketch) (hlo : 4 ≤ s.lg_k) (hhi : s.lg_k ≤ 26)
    (hmg : s.was_merged = false) (hfic : s.first_interesting_column < 256)
    (hC0 : s.num_coupons ≠ 0) (hT : s.surprising_value_table ≠ [])
    (hW : s.sliding_window ≠ []) :
    serialize s = 10 :: 1 :: 16 :: s.lg_k :: s.first_interesting_column :: 15 ::
      (s.seed % 65536 % 256) :: (s.seed % 65536 / 256 % 256) ::
      (leBytes 4 s.num_coupons ++ (leBytes 4 s.surprising_value_table.length
        ++ (leBytes 8 s.kxp ++ (leBytes 8 s.hip_est_accum
        ++ (leBytes 4 s.surprising_value_table.length
        ++ (leBytes 4 s.sliding_window.length
        ++ (wr_words s.sliding_window ++ wr_words s.surprising_value_table))))))) := by
  have hficm : s.first_interesting_column % 256 = s.first_interesting_column :=
    Nat.mod_eq_of_lt hfic
  have hlgm : s.lg_k % 256 = s.lg_k := Nat.mod_eq_of_lt (by omega)
  have hTne : s.surprising_value_table.isEmpty = false := isEmpty_false_of_ne_nil _ hT
  have hWne : s.sliding_window.isEmpty = false := isEmpty_false_of_ne_nil _ hW
  simp [serialize, compress, hTne, hWne, hmg, hC0, flags_byte_of, FLAG_IS_COMPRESSED,
    FLAG_HAS_HIP, FLAG_HAS_TABLE, FLAG_HAS_WINDOW, get_preamble_ints, leBytes,
    compute_seed_hash, SERIAL_VERSION, FAMILY, hficm, hlgm, Nat.pos_of_ne_zero]

theorem c2_case_d_full (s : Sketch) (hlo : 4 ≤ s.lg_k) (hhi : s.lg_k ≤ 26)
    (hmg : s.was_merged = false) (hfic : s.first_interesting_column < 256)
    (hC : s.num_coupons < 2 ^ 32) (hkxp : s.kxp < 2 ^ 64) (hhip : s.hip_est_accum < 2 ^ 64)
    (htb : ∀ x ∈ s.surprising_value_table, x < 2 ^ 32)
    (hwb : ∀ x ∈ s.sliding_window, x < 2 ^ 32)
    (htl : s.surprising_value_table.length < 2 ^ 32)
    (hwl : s.sliding_window.length < 2 ^ 32)
    (hC0 : s.num_coupons ≠ 0) (hT : s.surprising_value_table ≠ [])
    (hW : s.sliding_window ≠ []) :
    deserialize_stream (serialize s) s.seed
      = some ⟨s.lg_k, s.seed, false, s.num_coupons, s.surprising_value_table,
          s.sliding_window, determine_correct_offset s.lg_k s.num_coupons,
          s.first_interesting_column, s.kxp, s.hip_est_accum⟩ := by
  have hficm : s.first_interesting_column % 256 = s.first_interesting_column :=
    Nat.mod_eq_of_lt hfic
  have hlgm : s.lg_k % 256 = s.lg_k := Nat.mod_eq_of_lt (by omega)
  have hCm : s.num_coupons % 2 ^ (8 * 4) = s.num_coupons := Nat.mod_eq_of_lt (by omega)
  have hTLm : s.surprising_value_table.length % 2 ^ (8 * 4)
      = s.surprising_value_table.length := Nat.mod_eq_of_lt (by omega)
  have hWLm : s.sliding_window.length % 2 ^ (8 * 4)
      = s.sliding_window.length := Nat.mod_eq_of_lt (by omega)
  have hKm : s.kxp % 2 ^ (8 * 8) = s.kxp := Nat.mod_eq_of_lt (by omega)
  have hHm : s.hip_est_accum % 2 ^ (8 * 8) = s.hip_est_accum := Nat.mod_eq_of_lt (by omega)
  have hd4 : (leBytes 4 s.num_coupons ++ (leBytes 4 s.surprising_value_table.length
        ++ (leBytes 8 s.kxp ++ (leBytes 8 s.hip_est_accum
        ++ (leBytes 4 s.surprising_value_table.length
        ++ (leBytes 4 s.sliding_window.length
        ++ (wr_words s.sliding_window ++ wr_words s.surprising_value_table))))))).drop 4
      = leBytes 4 s.surprising_value_table.length
        ++ (leBytes 8 s.kxp ++ (leBytes 8 s.hip_est_accum
        ++ (leBytes 4 s.surprising_value_table.length
        ++ (leBytes 4 s.sliding_window.length
        ++ (wr_words s.sliding_window ++ wr_words s.surprising_value_table))))) :=
    drop_leBytes 4 _ _
  have hd8 : (leBytes 4 s.num_coupons ++ (leBytes 4 s.surprising_value_table.length
        ++ (leBytes 8 s.kxp ++ (leBytes 8 s.hip_est_accum
        ++ (leBytes 4 s.surprising_value_table.length
        ++ (leBytes 4 s.sliding_window.length
        ++ (wr_words s.sliding_window ++ wr_words s.surprising_value_table))))))).drop 8
      = leBytes 8 s.kxp ++ (leBytes 8 s.hip_est_accum
        ++ (leBytes 4 s.surprising_value_table.length
        ++ (leBytes 4 s.sliding_window.length
        ++ (wr_words s.sliding_window ++ wr_words s.surprising_value_table)))) := by
    rw [show (8 : Nat) = 4 + 4 from rfl, drop_leBytes_add, drop_leBytes]
  have hd16 : (leBytes 4 s.num_coupons ++ (leBytes 4 s.surprising_value_table.length
        ++ (leBytes 8 s.kxp ++ (leBytes 8 s.hip_est_accum
        ++ (leBytes 4 s.surprising_value_table.length
        ++ (leBytes 4 s.sliding_window.length
        ++ (wr_words s.sliding_window ++ wr_words s.surprising_value_table))))))).drop 16
      = leBytes 8 s.hip_est_accum
        ++ (leBytes 4 s.surprising_value_table.length
        ++ (leBytes 4 s.sliding_window.length
        ++ (wr_words s.sliding_window ++ wr_words s.surprising_value_table))) := by
    rw [show (16 : Nat) = 4 + 12 from rfl, drop_leBytes_add,
      show (12 : Nat) = 4 + 8 from rfl, drop_leBytes_add, drop_leBytes]
  have hd24 : (leBytes 4 s.num_coupons ++ (leBytes 4 s.surprising_value_table.length
        ++ (leBytes 8 s.kxp ++ (leBytes 8 s.hip_est_accum
        ++ (leBytes 4 s.surprising_value_table.length
        ++ (leBytes 4 s.sliding_window.length
        ++ (wr_words s.sliding_window ++ wr_words s.surprising_value_table))))))).drop 24
      = leBytes 4 s.surprising_value_table.length
        ++ (leBytes 4 s.sliding_window.length
        ++ (wr_words s.sliding_window ++ wr_words s.surprising_value_table)) := by
    rw [show (24 : Nat) = 4 + 20 from rfl, drop_leBytes_add,
      show (20 : Nat) = 4 + 16 from rfl, drop_leBytes_add,
      show (16 : Nat) = 8 + 8 from rfl, drop_leBytes_add, drop_leBytes]
  have hd28 : (leBytes 4 s.num_coupons ++ (leBytes 4 s.surprising_value_table.length
        ++ (leBytes 8 s.kxp ++ (leBytes 8 s.hip_est_accum
        ++ (leBytes 4 s.surprising_value_table.length
        ++ (leBytes 4 s.sliding_window.length
        ++ (wr_words s.sliding_window ++ wr_words s.surprising_value_table))))))).drop 28
      = leBytes 4 s.sliding_window.length
        ++ (wr_words s.sliding_window ++ wr_words s.surprising_value_table) := by
    rw [show (28 : Nat) = 4 + 24 from rfl, drop_leBytes_add,
      show (24 : Nat) = 4 + 20 from rfl, drop_leBytes_add,
      show (20 : Nat) = 8 + 12 from rfl, drop_leBytes_add,
      show (12 : Nat) = 8 + 4 from rfl, drop_leBytes_add, drop_leBytes]
  have hd32 : (leBytes 4 s.num_coupons ++ (leBytes 4 s.surprising_value_table.length
        ++ (leBytes 8 s.kxp ++ (leBytes 8 s.hip_est_accum
        ++ (leBytes 4 s.surprising_value_table.length
        ++ (leBytes 4 s.sliding_window.length
        ++ (wr_words s.sliding_window ++ wr_words s.surprising_value_table))))))).drop 32
      = wr_words s.sliding_window ++ wr_words s.surprising_value_table := by
    rw [show (32 : Nat) = 4 + 28 from rfl, drop_leBytes_add,
      show (28 : Nat) = 4 + 24 from rfl, drop_leBytes_add,
      show (24 : Nat) = 8 + 16 from rfl, drop_leBytes_add,
      show (16 : Nat) = 8 + 8 from rfl, drop_leBytes_add,
      show (8 : Nat) = 4 + 4 from rfl, drop_leBytes_add, drop_leBytes]
  have hrdW : rd_words s.sliding_window.length
      (wr_words s.sliding_window ++ wr_words s.surprising_value_table)
      = some (s.sliding_window, wr_words s.surprising_value_table) :=
    rd_words_exact s.sliding_window (wr_words s.surprising_value_table) hwb
  have hrdT : rd_words s.surprising_value_table.length
      (wr_words s.surprising_value_table) = some (s.surprising_value_table, []) := by
    have h2 := rd_words_exact s.surprising_value_table [] htb
    simpa using h2
  rw [c2_case_d_ser s hlo hhi hmg hfic hC0 hT hW]
  simp [deserialize_stream, parse_cpc, byteAt, flags_has_hip, flags_has_table,
    flags_has_window, FLAG_HAS_HIP, FLAG_HAS_TABLE, FLAG_HAS_WINDOW,
    get_preamble_ints, SERIAL_VERSION, FAMILY, compute_seed_hash,
    uncompress_table, uncompress_window, hficm, hlgm,
    hd4, hd8, hd16, hd24, hd28, hd32, hrdW, hrdT, take_leBytes, deLE_leBytes,
    hCm, hTLm, hWLm, hKm, hHm,
    List.length_append, leBytes_length, wr_words_length, hC0,
    show ((15 : Nat) &&& 4) = 4 from rfl, show ((15 : Nat) &&& 8) = 8 from rfl,
    show ((15 : Nat) &&& 2) = 2 from rfl]
  rw [if_neg (by omega), if_neg (by omega)]
  have hCpos : 0 < s.num_coupons := Nat.pos_of_ne_zero hC0
  have hCm2 : s.num_coupons % 4294967296 = s.num_coupons := Nat.mod_eq_of_lt (by omega)
  have hTLm2 : s.surprising_value_table.length % 4294967296
      = s.surprising_value_table.length := Nat.mod_eq_of_lt (by omega)
  have hWLm2 : s.sliding_window.length % 4294967296
      = s.sliding_window.length := Nat.mod_eq_of_lt (by omega)
  have hKm2 : s.kxp % 18446744073709551616 = s.kxp := Nat.mod_eq_of_lt (by omega)
  have hHm2 : s.hip_est_accum % 18446744073709551616 = s.hip_est_accum :=
    Nat.mod_eq_of_lt (by omega)
  simp [hCm2, hTLm2, hWLm2, hKm2, hHm2, hrdW, hrdT, hCpos,
    show ((15 : Nat) &&& 4) = 4 from rfl, show ((15 : Nat) &&& 8) = 8 from rfl,
    show ((15 : Nat) &&& 2) = 2 from rfl]
  omega

/-- C2 amended: for every serializable state (in particular every sketch
reachable by updates), deserializing the serialized bytes with the same seed
reproduces num_coupons, the surprising-table contents, the sliding-window
bytes, first_interesting_column and hip_est_accum exactly, and kxp
bit-exactly provided the sketch is non-empty (the empty sketch deserializes
with kxp = 0 instead of the initial value k). -/
theorem c2_roundtrip_amended (s : Sketch) (hs : SerializableState s) :
    ((deserialize_stream (serialize s) s.seed).map
        (fun s2 => (s2.num_coupons, s2.surprising_value_table, s2.sliding_window,
                    s2.first_interesting_column, s2.hip_est_accum)))
      = some (s.num_coupons, s.surprising_value_table, s.sliding_window,
              s.first_interesting_column, s.hip_est_accum)
    ∧ (0 < s.num_coupons →
        (deserialize_stream (serialize s) s.seed).map Sketch.kxp = some s.kxp) := by
  obtain ⟨hlo, hhi, hmg, hC, hfic, hkxp, hhip, htb, hwb, htl, hwl, hemp, hpos⟩ := hs
  by_cases hC0 : s.num_coupons = 0
  · obtain ⟨hT, hW, hH⟩ := hemp hC0
    rw [c2_case_a_full s hlo hhi hmg hfic hC0 hT hW]
    constructor
    · simp [hC0, hT, hW, hH]
    · intro hx
      exact absurd hC0 (by omega)
  · by_cases hW0 : s.sliding_window = []
    · have hT0 : s.surprising_value_table ≠ [] := by
        rcases hpos (Nat.pos_of_ne_zero hC0) with h | h
        · exact h
        · exact absurd hW0 h
      rw [c2_case_b_full s hlo hhi hmg hfic hC hkxp hhip htb htl hC0 hT0 hW0]
      exact ⟨by simp [hW0], fun hx => by simp⟩
    · by_cases hT0 : s.surprising_value_table = []
      · rw [c2_case_c_full s hlo hhi hmg hfic hC hkxp hhip hwb hwl hC0 hT0 hW0]
        exact ⟨by simp [hT0], fun hx => by simp⟩
      · rw [c2_case_d_full s hlo hhi hmg hfic hC hkxp hhip htb hwb htl hwl hC0 hT0 hW0]
        exact ⟨by simp, fun hx => by simp⟩

/-- C2 witness: a one-coupon sparse sketch at lg_k = 4 round-trips all
observable fields including kxp. -/
theorem c2_roundtrip_witness :
    ((deserialize_stream
        (serialize (⟨4, 9, false, 1, [7], [], 0, 0, 5, 6⟩ : Sketch)) 9).map
        (fun s2 => (s2.num_coupons, s2.surprising_value_table, s2.sliding_window,
                    s2.first_interesting_column, s2.hip_est_accum)))
      = some (1, [7], [], 0, 6)
    ∧ ((deserialize_stream
        (serialize (⟨4, 9, false, 1, [7], [], 0, 0, 5, 6⟩ : Sketch)) 9).map Sketch.kxp)
      = some 5 := by
  have h := c2_roundtrip_amended ⟨4, 9, false, 1, [7], [], 0, 0, 5, 6⟩
    (by unfold SerializableState; refine ⟨by decide, by decide, rfl, by decide, by decide,
      by decide, by decide, ?_, ?_, by decide, by decide, ?_, ?_⟩ <;> simp)
  exact ⟨h.1, h.2 (by decide)⟩


/-- C2 counterexample: the empty sketch (zero updates) serializes without
the HIP registers, and deserializing its own bytes yields kxp = 0, while
the fresh sketch holds the bit pattern of the double 2^lg_k; kxp is not
preserved bit-exactly. -/
theorem c2_roundtrip_empty_kxp_cex :
    ((cpc_sketch_new 4 7).bind (fun s => (deserialize_stream (serialize s) 7).map Sketch.kxp))
      = some 0
    ∧ ((cpc_sketch_new 4 7).map Sketch.kxp) = some (double_bits_of_pow2 4)
    ∧ double_bits_of_pow2 4 ≠ 0 := by
  decide

end Cpc
